import Mathlib

/-!
# Verification of the GitHub incident visualizer core

A shallow embedding of the repository's core modules:

* `src/data_processor.py` — `DataProcessor.process_incidents`,
  `DataProcessor.categorize_by_severity`, `DataProcessor.organize_by_month`,
  `DataProcessor._normalize_severity_categories`;
* `src/data_fetcher.py` — `DataFetcher._load_from_cache`,
  `DataFetcher._save_to_cache`, `DataFetcher.fetch_incidents`.

Python dictionaries are embedded as association lists in insertion order
(`d[k] = v` updates the first binding in place or appends a fresh one at the
end; `k in d` is a lookup; iteration follows the list).  Incident records are
embedded as structures over the three fields the code reads (`id`,
`created_at`, `impact`), each optional to model key absence, string-valued as
in the data model.  Fallible Python code (raising `ValueError`) is embedded
with `Except`/`Option`.  File-system and clock effects of the fetcher are
embedded as explicit state passed in and returned.
-/

namespace GHStatus

/-- Lookup in a Python-style dict: value of the first binding of `k`. -/
def dlookup {α : Type} : List (String × α) → String → Option α
  | [], _ => none
  | (k1, v1) :: rest, k => if k1 = k then some v1 else dlookup rest k

/-- Python-style dict assignment `d[k] = v`: replace the value of the first
binding of `k` keeping its position, or append a fresh binding at the end. -/
def dinsert {α : Type} : List (String × α) → String → α → List (String × α)
  | [], k, v => [(k, v)]
  | (k1, v1) :: rest, k, v =>
      if k1 = k then (k, v) :: rest else (k1, v1) :: dinsert rest k v

/-- One month bucket: severity label → count (a Python inner dict). -/
abbrev SevRow := List (String × Nat)

/-- The month × severity matrix (a Python dict of dicts). -/
abbrev MonthMatrix := List (String × SevRow)

/-- An incident record: the fields of interest that the processor reads.
Each field is `Option`al to model absence of the key in the record dict;
values are strings as in the repository's data model. -/
structure IncidentRecord where
  id : Option String := none
  created_at : Option String := none
  impact : Option String := none
deriving DecidableEq

/-- A raw payload: a dict that may or may not carry the `incidents` key. -/
structure Payload where
  incidents : Option (List IncidentRecord)

/-! ## The timestamp parser

`organize_by_month` runs
`datetime.fromisoformat(incident['created_at'].replace('Z', '+00:00'))` and
keeps only the year and month of the result.  We embed this as a
`List Char` parser for the `fromisoformat` grammar
`YYYY-MM-DD[*HH[:MM[:SS[.fff[fff]]]][+HH:MM[:SS[.ffffff]]]]`
(any single character may separate date and time), with the calendar and
range validation that the `datetime` constructor performs
(`1 <= year <= 9999`, `1 <= month <= 12`, day within the month, hour < 24,
minute < 60, second < 60, same bounds for the UTC offset), returning the
year and month on success. -/

/-- Numeric value of a decimal digit character, `none` otherwise. -/
def digitVal (c : Char) : Option Nat :=
  if '0' ≤ c ∧ c ≤ '9' then some (c.toNat - 48) else none

/-- Parse exactly two decimal digits. -/
def parse2 : List Char → Option (Nat × List Char)
  | c1 :: c2 :: rest =>
      match digitVal c1, digitVal c2 with
      | some a, some b => some (10 * a + b, rest)
      | _, _ => none
  | _ => none

/-- Parse exactly four decimal digits. -/
def parse4 : List Char → Option (Nat × List Char)
  | c1 :: c2 :: c3 :: c4 :: rest =>
      match digitVal c1, digitVal c2, digitVal c3, digitVal c4 with
      | some a, some b, some c, some d =>
          some (1000 * a + 100 * b + 10 * c + d, rest)
      | _, _, _, _ => none
  | _ => none

/-- Gregorian leap year, as `calendar.isleap` / `datetime` use it. -/
def is_leap (y : Nat) : Bool :=
  y % 4 = 0 && (y % 100 != 0 || y % 400 = 0)

/-- Number of days of month `m` in year `y`. -/
def days_in_month (y m : Nat) : Nat :=
  if m = 2 then (if is_leap y then 29 else 28)
  else if m = 4 || m = 6 || m = 9 || m = 11 then 30
  else 31

/-- Parse a fractional-digit run whose length must be `len1` or `len2`
(`fromisoformat` accepts exactly 3 or 6 fractional digits). -/
def parse_frac (len1 len2 : Nat) (cs : List Char) : Option (List Char) :=
  let ds := cs.takeWhile (fun c => (digitVal c).isSome)
  if ds.length = len1 ∨ ds.length = len2 then some (cs.drop ds.length) else none

/-- Parse the time component `HH[:MM[:SS[.fff[fff]]]]` with range checks,
returning the unconsumed suffix (handed to the offset parser). -/
def parse_time (cs : List Char) : Option (List Char) :=
  match parse2 cs with
  | none => none
  | some (h, r1) =>
      if 24 ≤ h then none else
      match r1 with
      | ':' :: r2 =>
          match parse2 r2 with
          | none => none
          | some (mi, r3) =>
              if 60 ≤ mi then none else
              match r3 with
              | ':' :: r4 =>
                  match parse2 r4 with
                  | none => none
                  | some (s, r5) =>
                      if 60 ≤ s then none else
                      match r5 with
                      | '.' :: r6 => parse_frac 3 6 r6
                      | _ => some r5
              | _ => some r3
      | _ => some r1

/-- Parse the UTC-offset component: empty, or
`('+'|'-')HH:MM[:SS[.ffffff]]` consuming the whole rest, with range checks. -/
def parse_offset (cs : List Char) : Option Unit :=
  match cs with
  | [] => some ()
  | sign :: rest =>
      if sign = '+' ∨ sign = '-' then
        match parse2 rest with
        | none => none
        | some (h, r1) =>
            if 24 ≤ h then none else
            match r1 with
            | ':' :: r2 =>
                match parse2 r2 with
                | none => none
                | some (mi, r3) =>
                    if 60 ≤ mi then none else
                    match r3 with
                    | [] => some ()
                    | ':' :: r4 =>
                        match parse2 r4 with
                        | none => none
                        | some (s, r5) =>
                            if 60 ≤ s then none else
                            match r5 with
                            | [] => some ()
                            | '.' :: r6 =>
                                match parse_frac 6 6 r6 with
                                | some [] => some ()
                                | _ => none
                            | _ => none
                    | _ => none
            | _ => none
      else none

/-- Parse and validate the date component `YYYY-MM-DD`, returning year,
month, day and the unconsumed suffix. -/
def parse_date (cs : List Char) : Option (Nat × Nat × Nat × List Char) :=
  match parse4 cs with
  | none => none
  | some (y, r1) =>
      match r1 with
      | '-' :: r2 =>
          match parse2 r2 with
          | none => none
          | some (m, r3) =>
              match r3 with
              | '-' :: r4 =>
                  match parse2 r4 with
                  | none => none
                  | some (d, r5) =>
                      if 1 ≤ y ∧ y ≤ 9999 ∧ 1 ≤ m ∧ m ≤ 12 ∧ 1 ≤ d ∧
                          d ≤ days_in_month y m then
                        some (y, m, d, r5)
                      else none
              | _ => none
      | _ => none

/-- The full `fromisoformat` grammar over characters; only the year and
month of a successful parse are kept (all `organize_by_month` uses). -/
def parse_iso_chars (cs : List Char) : Option (Nat × Nat) :=
  match parse_date cs with
  | none => none
  | some (y, m, _d, rest) =>
      match rest with
      | [] => some (y, m)
      | _sep :: r6 =>
          match parse_time r6 with
          | none => none
          | some r7 => (parse_offset r7).map (fun _ => (y, m))

/-- `s.replace('Z', '+00:00')` on the character list: the pattern is a
single character, so this is a pointwise, non-overlapping substitution. -/
def replaceZ : List Char → List Char
  | [] => []
  | c :: rest =>
      if c = 'Z' then '+' :: '0' :: '0' :: ':' :: '0' :: '0' :: replaceZ rest
      else c :: replaceZ rest

/-- `datetime.fromisoformat(s.replace('Z', '+00:00'))`, reduced to the
year/month it contributes downstream; `none` models `ValueError`. -/
def parse_iso (s : String) : Option (Nat × Nat) :=
  parse_iso_chars (replaceZ s.toList)

/-! ## The processor (`src/data_processor.py`) -/

/-- `f"{created_date.year}-{created_date.month:02d}"`: the month is
zero-padded to two digits, the year is printed in plain decimal. -/
def month_key (y m : Nat) : String :=
  toString y ++ "-" ++ (if m < 10 then "0" ++ toString m else toString m)

/-- `DataProcessor.categorize_by_severity`: error (`ValueError`) iff the
`impact` field is absent, otherwise the impact value verbatim. -/
def categorize_by_severity (incident : IncidentRecord) : Except String String :=
  match incident.impact with
  | none => .error "Invalid incident format: 'impact' field not found"
  | some v => .ok v

/-- One iteration of the `for incident in incidents` loop of
`DataProcessor.organize_by_month`: records missing `created_at`, with
unparsable `created_at` (`ValueError` from `fromisoformat`) or missing
`impact` (`ValueError` from `categorize_by_severity`, caught by the
`except (ValueError, KeyError)` handler) leave the accumulator unchanged;
otherwise the nested dict entry is initialized to 0 on first touch and
incremented. -/
def organize_step (monthly_data : MonthMatrix) (incident : IncidentRecord) :
    MonthMatrix :=
  match incident.created_at with
  | none => monthly_data
  | some s =>
      match parse_iso s with
      | none => monthly_data
      | some (y, m) =>
          let mk := month_key y m
          match categorize_by_severity incident with
          | .error _ => monthly_data
          | .ok severity =>
              let row := (dlookup monthly_data mk).getD []
              let cnt := (dlookup row severity).getD 0
              dinsert monthly_data mk (dinsert row severity (cnt + 1))

/-- The union of severity labels over all month rows.  The Python code
collects them into a `set`; we keep the concatenated key lists (duplicates
and order are irrelevant: the normalization below only tests membership and
inserts a key at most once). -/
def all_severities (monthly_data : MonthMatrix) : List String :=
  (monthly_data.map (fun p => p.2.map Prod.fst)).flatten

/-- The inner `for severity in all_severities` loop of
`_normalize_severity_categories` on one month row: insert an explicit 0
for each label the row lacks. -/
def normalize_row (sevs : List String) (row : SevRow) : SevRow :=
  sevs.foldl
    (fun r severity =>
      if (dlookup r severity).isSome then r else dinsert r severity 0) row

/-- `_normalize_severity_categories` with the severity union precomputed. -/
def normalize_with (sevs : List String) (monthly_data : MonthMatrix) :
    MonthMatrix :=
  monthly_data.map (fun p => (p.1, normalize_row sevs p.2))

/-- `DataProcessor._normalize_severity_categories`: give every month row an
explicit (0) entry for every severity label observed in any row.  The Python
procedure mutates `monthly_data` in place; the embedding returns the updated
matrix. -/
def normalize_severity_categories (monthly_data : MonthMatrix) : MonthMatrix :=
  normalize_with (all_severities monthly_data) monthly_data

/-- `DataProcessor.organize_by_month`: the skip-and-continue aggregation
sweep followed by severity normalization. -/
def organize_by_month (incidents : List IncidentRecord) : MonthMatrix :=
  normalize_severity_categories (incidents.foldl organize_step [])

/-- `DataProcessor.process_incidents`: `ValueError` iff the payload lacks
the `incidents` key, otherwise delegate to `organize_by_month`. -/
def process_incidents (raw_data : Payload) : Except String MonthMatrix :=
  match raw_data.incidents with
  | none => .error "Invalid data format: 'incidents' key not found in raw data"
  | some incidents => .ok (organize_by_month incidents)

/-! ## The fetcher (`src/data_fetcher.py`)

The cache file and the clock are explicit values.  Timestamps are integer
seconds (`time.time()` / `datetime.fromtimestamp`); `CacheFile` enumerates
the observable states of the cache file that `_load_from_cache`
distinguishes. -/

/-- The state of the on-disk cache file as `_load_from_cache` can see it. -/
inductive CacheFile where
  /-- `os.path.exists` is false. -/
  | absent
  /-- opening or reading raises `IOError`. -/
  | unreadable
  /-- the content is not valid JSON (`json.JSONDecodeError`). -/
  | corrupt
  /-- valid JSON but not a dict with both `timestamp` and `data` keys. -/
  | malformed
  /-- a structurally valid entry: write time and stored payload. -/
  | entry (timestamp : Int) (data : Payload)

/-- `DataFetcher._load_from_cache` at clock time `now` with TTL `ttl`:
returns the optional cached payload and the cache-used flag. -/
def load_from_cache (now ttl : Int) (file : CacheFile) :
    Option Payload × Bool :=
  match file with
  | .absent => (none, false)
  | .unreadable => (none, false)
  | .corrupt => (none, false)
  | .malformed => (none, false)
  | .entry ts data => if ttl < now - ts then (none, false) else (some data, true)

/-- `DataFetcher._save_to_cache` at clock time `now`: on a successful write
the file holds a fresh entry; a failed write (`IOError`, flag `write_ok`
false) leaves the file as it was and reports `false`. -/
def save_to_cache (now : Int) (write_ok : Bool) (file : CacheFile)
    (data : Payload) : CacheFile × Bool :=
  if write_ok then (.entry now data, true) else (file, false)

/-- The behavior of the network for one `requests.get`: transport failure,
a body that fails JSON parsing, or a parsed payload. -/
inductive NetResponse where
  /-- `requests.exceptions.RequestException` (connection, timeout, 4XX/5XX). -/
  | request_failure
  /-- `response.json()` raises `ValueError`. -/
  | unparsable
  /-- a parsed JSON payload (its `incidents` key may still be missing). -/
  | parsed (data : Payload)

/-- The exception classes `fetch_incidents` declares. -/
inductive FetchError where
  | request_error
  | parse_error
  | cache_error
deriving DecidableEq

/-- A successful fetch: the returned payload, the resulting cache-file
state, and whether network I/O was performed. -/
structure FetchOutcome where
  data : Payload
  file : CacheFile
  network_used : Bool

/-- The network half of `DataFetcher.fetch_incidents` (lines 190-222):
`requests.get` + `raise_for_status` (a failure raises `RequestError`),
`response.json()` (a failure raises `ParseError`), the `incidents`
shape check (raises `ParseError`), and the opportunistic cache rewrite
whose result is ignored. -/
def fetch_network_phase (use_cache : Bool) (now : Int) (write_ok : Bool)
    (file : CacheFile) (net : NetResponse) : Except FetchError FetchOutcome :=
  match net with
  | .request_failure => .error .request_error
  | .unparsable => .error .parse_error
  | .parsed data =>
      match data.incidents with
      | none => .error .parse_error
      | some _ =>
          if use_cache then
            .ok ⟨data, (save_to_cache now write_ok file data).1, true⟩
          else .ok ⟨data, file, true⟩

/-- `DataFetcher.fetch_incidents`: serve from a fresh cache entry when
possible (the guard is `cache_used and cached_data is not None`), otherwise
run the network phase. -/
def fetch_incidents (use_cache : Bool) (now ttl : Int) (write_ok : Bool)
    (file : CacheFile) (net : NetResponse) : Except FetchError FetchOutcome :=
  let cache_try : Option Payload :=
    if use_cache then
      let (cached_data, cache_used) := load_from_cache now ttl file
      if cache_used then cached_data else none
    else none
  match cache_try with
  | some d => .ok ⟨d, file, false⟩
  | none => fetch_network_phase use_cache now write_ok file net

/-! ## Derived observations used by the statements -/

/-- The count stored for `(mk, sev)`: `none` when the month row or the
severity entry is absent. -/
def get2 (monthly_data : MonthMatrix) (mk sev : String) : Option Nat :=
  (dlookup monthly_data mk).bind (fun row => dlookup row sev)

/-- The month key a record would be bucketed under, when its `created_at`
is present and parsable. -/
def record_month (r : IncidentRecord) : Option String :=
  r.created_at.bind (fun s => (parse_iso s).map (fun p => month_key p.1 p.2))

/-- A record survives the sweep iff its timestamp parses and `impact` is
present. -/
def record_ok (r : IncidentRecord) : Bool :=
  (record_month r).isSome && r.impact.isSome

/-- The record survives the sweep and lands in bucket `(mk, sev)`. -/
def hits (mk sev : String) (r : IncidentRecord) : Bool :=
  record_ok r && decide (record_month r = some mk) &&
    decide (r.impact = some sev)

/-- The record survives the sweep and lands in month `mk`. -/
def hits_month (mk : String) (r : IncidentRecord) : Bool :=
  record_ok r && decide (record_month r = some mk)

/-- The record survives the sweep carrying severity `sev`. -/
def has_sev (sev : String) (r : IncidentRecord) : Bool :=
  record_ok r && decide (r.impact = some sev)

/-- Number of surviving records of `l` bucketed at `(mk, sev)`. -/
def cnt_rec (l : List IncidentRecord) (mk sev : String) : Nat :=
  l.countP (hits mk sev)

/-- Number of surviving records of `l` bucketed in month `mk`. -/
def cnt_month (l : List IncidentRecord) (mk : String) : Nat :=
  l.countP (hits_month mk)

/-- Some surviving record of `l` carries severity `sev`. -/
def sev_occurs (l : List IncidentRecord) (sev : String) : Bool :=
  l.any (has_sev sev)

/-- Sum of the counts in one month row. -/
def row_total (row : SevRow) : Nat := (row.map Prod.snd).sum

/-- Sum of all counts in the matrix. -/
def matrix_total (monthly_data : MonthMatrix) : Nat :=
  (monthly_data.map (fun p => row_total p.2)).sum

/-! ## Concrete records used in the spec's scenarios -/

/-- A valid January 2025 record with impact `major`. -/
def ex_jan_major : IncidentRecord :=
  {created_at := some "2025-01-15T00:00:00Z", impact := some "major"}

/-- A valid January 2025 record with impact `minor`. -/
def ex_jan_minor : IncidentRecord :=
  {created_at := some "2025-01-20T00:00:00Z", impact := some "minor"}

/-- A valid February 2025 record with impact `minor`. -/
def ex_feb_minor : IncidentRecord :=
  {created_at := some "2025-02-05T00:00:00Z", impact := some "minor"}

/-- A valid February 2025 record with impact `none`. -/
def ex_feb_none : IncidentRecord :=
  {created_at := some "2025-02-10T00:00:00Z", impact := some "none"}

/-- A record with no `created_at` key. -/
def ex_no_created : IncidentRecord := {id := some "a"}

/-- A record whose `created_at` does not parse. -/
def ex_bad_created : IncidentRecord :=
  {created_at := some "not-a-date", impact := some "minor"}

/-- A record with a parsable `created_at` but no `impact` key. -/
def ex_no_impact : IncidentRecord :=
  {created_at := some "2025-01-20T00:00:00Z"}

/-- A record carrying only an `id` (used by the categorizer scenario). -/
def ex_only_id : IncidentRecord := {id := some "x"}

/-- A record carrying only an `impact` (used by the categorizer scenario). -/
def ex_only_impact : IncidentRecord := {impact := some "major"}

/-- The §8.2 batch: 2 valid + 1 missing `created_at` + 1 unparsable
`created_at` + 1 missing `impact`. -/
def ex_batch_c2 : List IncidentRecord :=
  [ex_jan_major, ex_feb_minor, ex_no_created, ex_bad_created, ex_no_impact]

/-- The §8.7 end-to-end batch of four valid records. -/
def ex_batch_c3 : List IncidentRecord :=
  [ex_jan_major, ex_jan_minor, ex_feb_minor, ex_feb_none]

/-- The §8.7 end-to-end payload. -/
def ex_payload_c3 : Payload := ⟨some ex_batch_c3⟩

/-! ## Dictionary lemmas -/

theorem dlookup_dinsert {α : Type} (d : List (String × α)) (k : String) (v : α)
    (k' : String) :
    dlookup (dinsert d k v) k' = if k = k' then some v else dlookup d k' := by
  induction d with
  | nil => simp [dinsert, dlookup]
  | cons p rest ih =>
      obtain ⟨k0, v0⟩ := p
      by_cases h0 : k0 = k
      · subst h0
        by_cases h1 : k0 = k'
        · subst h1; simp [dinsert, dlookup]
        · simp [dinsert, dlookup, h1]
      · by_cases h1 : k0 = k'
        · subst h1
          have hkk : k ≠ k0 := fun h => h0 h.symm
          simp [dinsert, dlookup, h0, hkk]
        · simp [dinsert, dlookup, h0, h1, ih]

theorem mem_keys_dinsert {α : Type} (d : List (String × α)) (k : String)
    (v : α) (a : String) :
    a ∈ (dinsert d k v).map Prod.fst ↔ a ∈ d.map Prod.fst ∨ a = k := by
  induction d with
  | nil => simp [dinsert]
  | cons p rest ih =>
      obtain ⟨k0, v0⟩ := p
      by_cases h0 : k0 = k
      · subst h0; simp [dinsert]; tauto
      · simp [dinsert, h0, ih]; tauto

/-! ## The aggregation sweep, one step at a time -/

theorem record_month_of_fields (r : IncidentRecord) (s : String)
    (y m : Nat) (hc : r.created_at = some s) (hp : parse_iso s = some (y, m)) :
    record_month r = some (month_key y m) := by
  simp [record_month, hc, hp]

theorem get2_organize_step (m : MonthMatrix) (r : IncidentRecord)
    (mk sev : String) :
    get2 (organize_step m r) mk sev =
      if hits mk sev r then some ((get2 m mk sev).getD 0 + 1)
      else get2 m mk sev := by
  cases hc : r.created_at with
  | none =>
      simp [organize_step, hc, hits, record_ok, record_month]
  | some s =>
      cases hp : parse_iso s with
      | none =>
          simp [organize_step, hc, hp, hits, record_ok, record_month]
      | some ym =>
          obtain ⟨y, mo⟩ := ym
          cases hi : r.impact with
          | none =>
              simp [organize_step, hc, hp, hi, hits, categorize_by_severity]
          | some v =>
              have hrm : record_month r = some (month_key y mo) :=
                record_month_of_fields r s y mo hc hp
              have hok : record_ok r = true := by
                simp [record_ok, hrm, hi]
              simp only [organize_step, hc, hp, categorize_by_severity, hi]
              simp only [hits, hok, hrm, hi, Bool.true_and]
              by_cases hmk : month_key y mo = mk
              · subst hmk
                by_cases hv : v = sev
                · subst hv
                  simp only [get2, dlookup_dinsert, if_pos rfl]
                  cases hrow : dlookup m (month_key y mo) <;>
                    simp [dlookup_dinsert, hrow, dlookup]
                · simp only [get2, dlookup_dinsert, if_pos rfl]
                  cases hrow : dlookup m (month_key y mo) <;>
                    simp [dlookup_dinsert, hrow, hv, dlookup]
              · simp only [get2, dlookup_dinsert, if_neg hmk]
                simp [hmk]

theorem dlookup_organize_step (m : MonthMatrix) (r : IncidentRecord)
    (mk : String) :
    (dlookup (organize_step m r) mk).isSome =
      ((dlookup m mk).isSome || hits_month mk r) := by
  cases hc : r.created_at with
  | none =>
      simp [organize_step, hc, hits_month, record_ok, record_month]
  | some s =>
      cases hp : parse_iso s with
      | none =>
          simp [organize_step, hc, hp, hits_month, record_ok, record_month]
      | some ym =>
          obtain ⟨y, mo⟩ := ym
          cases hi : r.impact with
          | none =>
              simp [organize_step, hc, hp, hi, hits_month,
                categorize_by_severity, record_ok, record_month]
          | some v =>
              have hrm : record_month r = some (month_key y mo) :=
                record_month_of_fields r s y mo hc hp
              have hok : record_ok r = true := by
                simp [record_ok, hrm, hi]
              simp only [organize_step, hc, hp, categorize_by_severity, hi]
              simp only [hits_month, hok, hrm, Bool.true_and]
              rw [dlookup_dinsert]
              by_cases hmk : month_key y mo = mk
              · simp [hmk]
              · simp [hmk]

theorem mem_all_severities_cons (p : String × SevRow) (rest : MonthMatrix)
    (a : String) :
    a ∈ all_severities (p :: rest) ↔
      a ∈ p.2.map Prod.fst ∨ a ∈ all_severities rest := by
  simp [all_severities]

theorem mem_all_severities_of_mem_row (m : MonthMatrix) (mk b : String)
    (hb : b ∈ ((dlookup m mk).getD []).map Prod.fst) :
    b ∈ all_severities m := by
  induction m with
  | nil => simp [dlookup] at hb
  | cons p rest ih =>
      obtain ⟨k0, r0⟩ := p
      rw [mem_all_severities_cons]
      by_cases h0 : k0 = mk
      · left
        simpa [dlookup, h0] using hb
      · right
        exact ih (by simpa [dlookup, h0] using hb)

theorem mem_all_severities_dinsert (m : MonthMatrix) (mk : String)
    (newrow : SevRow) (a : String)
    (hsub : ∀ b, b ∈ ((dlookup m mk).getD []).map Prod.fst →
      b ∈ newrow.map Prod.fst) :
    a ∈ all_severities (dinsert m mk newrow) ↔
      a ∈ all_severities m ∨ a ∈ newrow.map Prod.fst := by
  induction m with
  | nil => simp [dinsert, all_severities]
  | cons p rest ih =>
      obtain ⟨k0, r0⟩ := p
      by_cases h0 : k0 = mk
      · subst h0
        have hsub0 : ∀ b, b ∈ r0.map Prod.fst → b ∈ newrow.map Prod.fst := by
          intro b hb
          exact hsub b (by simpa [dlookup] using hb)
        have hstep : dinsert ((k0, r0) :: rest) k0 newrow =
            (k0, newrow) :: rest := by
          simp [dinsert]
        rw [hstep, mem_all_severities_cons, mem_all_severities_cons]
        constructor
        · rintro (h | h)
          · right; exact h
          · left; right; exact h
        · rintro ((h | h) | h)
          · left; exact hsub0 a h
          · right; exact h
          · left; exact h
      · have hlook : (dlookup ((k0, r0) :: rest) mk).getD [] =
            (dlookup rest mk).getD [] := by
          simp [dlookup, h0]
        rw [hlook] at hsub
        have hstep : dinsert ((k0, r0) :: rest) mk newrow =
            (k0, r0) :: dinsert rest mk newrow := by
          simp [dinsert, h0]
        rw [hstep, mem_all_severities_cons, mem_all_severities_cons, ih hsub]
        tauto

theorem mem_all_severities_organize_step (m : MonthMatrix)
    (r : IncidentRecord) (a : String) :
    a ∈ all_severities (organize_step m r) ↔
      a ∈ all_severities m ∨ has_sev a r := by
  cases hc : r.created_at with
  | none =>
      simp [organize_step, hc, has_sev, record_ok, record_month]
  | some s =>
      cases hp : parse_iso s with
      | none =>
          simp [organize_step, hc, hp, has_sev, record_ok, record_month]
      | some ym =>
          obtain ⟨y, mo⟩ := ym
          cases hi : r.impact with
          | none =>
              simp [organize_step, hc, hp, hi, has_sev,
                categorize_by_severity, record_ok]
          | some v =>
              have hrm : record_month r = some (month_key y mo) :=
                record_month_of_fields r s y mo hc hp
              have hok : record_ok r = true := by
                simp [record_ok, hrm, hi]
              simp only [organize_step, hc, hp, categorize_by_severity, hi]
              rw [mem_all_severities_dinsert _ _ _ _
                (fun b hb => by rw [mem_keys_dinsert]; left; exact hb)]
              rw [mem_keys_dinsert]
              have hhs : has_sev a r = (v = a) := by
                simp [has_sev, hok, hi]
              rw [hhs]
              constructor
              · rintro (h | (h | h))
                · left; exact h
                · left
                  exact mem_all_severities_of_mem_row m (month_key y mo) a h
                · right; exact h.symm
              · rintro (h | h)
                · left; exact h
                · right; right; exact h.symm

/-! ## Folding the sweep over the whole batch -/

theorem get2_getD_foldl (l : List IncidentRecord) :
    ∀ (m : MonthMatrix) (mk sev : String),
    (get2 (l.foldl organize_step m) mk sev).getD 0 =
      (get2 m mk sev).getD 0 + cnt_rec l mk sev := by
  induction l with
  | nil => intro m mk sev; simp [cnt_rec]
  | cons r rest ih =>
      intro m mk sev
      rw [List.foldl_cons, ih, get2_organize_step]
      have hc : cnt_rec (r :: rest) mk sev =
          cnt_rec rest mk sev + if hits mk sev r then 1 else 0 :=
        List.countP_cons _ _ _
      by_cases h : hits mk sev r
      · simp only [if_pos h, hc]
        simp [h]
        omega
      · simp [hc, h]

theorem get2_isSome_foldl (l : List IncidentRecord) :
    ∀ (m : MonthMatrix) (mk sev : String),
    (get2 (l.foldl organize_step m) mk sev).isSome ↔
      (get2 m mk sev).isSome ∨ 0 < cnt_rec l mk sev := by
  induction l with
  | nil => intro m mk sev; simp [cnt_rec]
  | cons r rest ih =>
      intro m mk sev
      rw [List.foldl_cons, ih, get2_organize_step]
      have hc : cnt_rec (r :: rest) mk sev =
          cnt_rec rest mk sev + if hits mk sev r then 1 else 0 :=
        List.countP_cons _ _ _
      by_cases h : hits mk sev r
      · simp [h, hc]
      · simp [h, hc]

theorem dlookup_isSome_foldl (l : List IncidentRecord) :
    ∀ (m : MonthMatrix) (mk : String),
    (dlookup (l.foldl organize_step m) mk).isSome ↔
      (dlookup m mk).isSome ∨ 0 < cnt_month l mk := by
  induction l with
  | nil => intro m mk; simp [cnt_month]
  | cons r rest ih =>
      intro m mk
      rw [List.foldl_cons, ih, dlookup_organize_step]
      have hc : cnt_month (r :: rest) mk =
          cnt_month rest mk + if hits_month mk r then 1 else 0 :=
        List.countP_cons _ _ _
      by_cases h : hits_month mk r
      · simp [h, hc]
      · simp [h, hc]

theorem mem_all_severities_foldl (l : List IncidentRecord) :
    ∀ (m : MonthMatrix) (a : String),
    a ∈ all_severities (l.foldl organize_step m) ↔
      a ∈ all_severities m ∨ sev_occurs l a := by
  induction l with
  | nil => intro m a; simp [sev_occurs]
  | cons r rest ih =>
      intro m a
      rw [List.foldl_cons, ih, mem_all_severities_organize_step]
      have hc : sev_occurs (r :: rest) a = (has_sev a r || sev_occurs rest a) :=
        List.any_cons
      rw [hc]
      by_cases h : has_sev a r <;> simp [h]

/-! ## Totals -/

theorem row_total_dinsert_new (row : SevRow) (k : String) (v : Nat)
    (h : dlookup row k = none) :
    row_total (dinsert row k v) = row_total row + v := by
  induction row with
  | nil => simp [dinsert, row_total]
  | cons p rest ih =>
      obtain ⟨k0, v0⟩ := p
      by_cases h0 : k0 = k
      · simp [dlookup, h0] at h
      · simp only [dlookup, if_neg h0] at h
        simp [dinsert, h0, row_total] at ih ⊢
        rw [ih h]
        omega

theorem row_total_dinsert_incr (row : SevRow) (k : String) :
    row_total (dinsert row k ((dlookup row k).getD 0 + 1)) =
      row_total row + 1 := by
  induction row with
  | nil => simp [dinsert, dlookup, row_total]
  | cons p rest ih =>
      obtain ⟨k0, v0⟩ := p
      by_cases h0 : k0 = k
      · subst h0
        simp [dinsert, dlookup, row_total]
        omega
      · simp [dinsert, dlookup, h0, row_total] at ih ⊢
        rw [ih]
        omega

theorem matrix_total_dinsert (m : MonthMatrix) (mk : String) (newrow : SevRow) :
    matrix_total (dinsert m mk newrow) +
      row_total ((dlookup m mk).getD []) =
      matrix_total m + row_total newrow := by
  induction m with
  | nil => simp [dinsert, dlookup, matrix_total, row_total]
  | cons p rest ih =>
      obtain ⟨k0, r0⟩ := p
      by_cases h0 : k0 = mk
      · subst h0
        simp [dinsert, dlookup, matrix_total]
        omega
      · simp only [dinsert, if_neg h0, dlookup, matrix_total, List.map_cons,
          List.sum_cons] at ih ⊢
        omega

theorem matrix_total_organize_step (m : MonthMatrix) (r : IncidentRecord) :
    matrix_total (organize_step m r) =
      matrix_total m + (if record_ok r then 1 else 0) := by
  cases hc : r.created_at with
  | none => simp [organize_step, hc, record_ok, record_month]
  | some s =>
      cases hp : parse_iso s with
      | none => simp [organize_step, hc, hp, record_ok, record_month]
      | some ym =>
          obtain ⟨y, mo⟩ := ym
          cases hi : r.impact with
          | none =>
              simp [organize_step, hc, hp, hi, categorize_by_severity,
                record_ok]
          | some v =>
              have hok : record_ok r = true := by
                simp [record_ok, record_month, hc, hp, hi]
              simp only [organize_step, hc, hp, categorize_by_severity, hi,
                hok, if_pos]
              have h1 := matrix_total_dinsert m (month_key y mo)
                (dinsert ((dlookup m (month_key y mo)).getD []) v
                  ((dlookup ((dlookup m (month_key y mo)).getD []) v).getD 0
                    + 1))
              have h2 := row_total_dinsert_incr
                ((dlookup m (month_key y mo)).getD []) v
              omega

theorem matrix_total_foldl (l : List IncidentRecord) :
    ∀ m : MonthMatrix,
    matrix_total (l.foldl organize_step m) =
      matrix_total m + l.countP record_ok := by
  induction l with
  | nil => intro m; simp
  | cons r rest ih =>
      intro m
      rw [List.foldl_cons, ih, matrix_total_organize_step,
        List.countP_cons]
      omega

/-! ## Normalization lemmas -/

theorem dlookup_isSome_iff_mem_keys {α : Type} (d : List (String × α))
    (k : String) :
    (dlookup d k).isSome ↔ k ∈ d.map Prod.fst := by
  induction d with
  | nil => simp [dlookup]
  | cons p rest ih =>
      obtain ⟨k0, v0⟩ := p
      by_cases h0 : k0 = k
      · simp [dlookup, h0]
      · simp [dlookup, h0, ih]
        tauto

theorem dlookup_normalize_with (sevs : List String) (m : MonthMatrix)
    (mk : String) :
    dlookup (normalize_with sevs m) mk =
      (dlookup m mk).map (normalize_row sevs) := by
  induction m with
  | nil => simp [normalize_with, dlookup]
  | cons p rest ih =>
      obtain ⟨k0, r0⟩ := p
      by_cases h0 : k0 = mk
      · simp [normalize_with, dlookup, h0]
      · simpa [normalize_with, dlookup, h0] using ih

theorem keys_normalize_with (sevs : List String) (m : MonthMatrix) :
    (normalize_with sevs m).map Prod.fst = m.map Prod.fst := by
  induction m with
  | nil => rfl
  | cons p rest ih => simp [normalize_with]

theorem dlookup_normalize_row (sevs : List String) :
    ∀ (row : SevRow) (k : String),
    dlookup (normalize_row sevs row) k =
      if (dlookup row k).isSome then dlookup row k
      else if k ∈ sevs then some 0 else none := by
  induction sevs with
  | nil =>
      intro row k
      cases h : dlookup row k <;> simp [normalize_row, h]
  | cons s rest ih =>
      intro row k
      have hstep : normalize_row (s :: rest) row =
          normalize_row rest
            (if (dlookup row s).isSome then row else dinsert row s 0) := rfl
      rw [hstep]
      by_cases hs : (dlookup row s).isSome
      · rw [if_pos hs, ih]
        by_cases hk : (dlookup row k).isSome
        · simp [hk]
        · have hks : k ≠ s := by
            intro h; rw [h] at hk; exact hk hs
          simp [hk, List.mem_cons, hks]
      · rw [if_neg hs, ih]
        rw [dlookup_dinsert]
        by_cases hks : s = k
        · subst hks
          have hnone : dlookup row s = none := by
            cases h : dlookup row s
            · rfl
            · rw [h] at hs; simp at hs
          simp [hnone]
        · have hks2 : k ≠ s := fun h => hks h.symm
          simp [hks, List.mem_cons, hks2]

theorem row_total_normalize_row (sevs : List String) :
    ∀ row : SevRow, row_total (normalize_row sevs row) = row_total row := by
  induction sevs with
  | nil => intro row; rfl
  | cons s rest ih =>
      intro row
      have hstep : normalize_row (s :: rest) row =
          normalize_row rest
            (if (dlookup row s).isSome then row else dinsert row s 0) := rfl
      rw [hstep]
      by_cases hs : (dlookup row s).isSome
      · rw [if_pos hs, ih]
      · rw [if_neg hs, ih]
        have hnone : dlookup row s = none := by
          cases h : dlookup row s
          · rfl
          · rw [h] at hs; simp at hs
        rw [row_total_dinsert_new row s 0 hnone]
        omega

theorem matrix_total_normalize_with (sevs : List String) (m : MonthMatrix) :
    matrix_total (normalize_with sevs m) = matrix_total m := by
  induction m with
  | nil => rfl
  | cons p rest ih =>
      simp only [normalize_with, List.map_cons, matrix_total,
        List.sum_cons] at ih ⊢
      rw [row_total_normalize_row, ih]

theorem mem_all_severities_iff_exists {m : MonthMatrix} {a : String} :
    a ∈ all_severities m ↔ ∃ p ∈ m, a ∈ p.2.map Prod.fst := by
  simp only [all_severities]
  constructor
  · intro h
    obtain ⟨l, hl, ha⟩ := List.mem_flatten.1 h
    obtain ⟨p, hp, rfl⟩ := List.mem_map.1 hl
    exact ⟨p, hp, ha⟩
  · rintro ⟨p, hp, ha⟩
    exact List.mem_flatten.2 ⟨_, List.mem_map.2 ⟨p, hp, rfl⟩, ha⟩

theorem mem_all_severities_normalize_with (m : MonthMatrix) (a : String) :
    a ∈ all_severities (normalize_with (all_severities m) m) ↔
      a ∈ all_severities m := by
  rw [mem_all_severities_iff_exists]
  constructor
  · rintro ⟨p, hp, hmem⟩
    simp only [normalize_with, List.mem_map] at hp
    obtain ⟨q, hq, rfl⟩ := hp
    rw [← dlookup_isSome_iff_mem_keys, dlookup_normalize_row] at hmem
    by_cases hk : (dlookup q.2 a).isSome
    · rw [mem_all_severities_iff_exists]
      exact ⟨q, hq, by rwa [← dlookup_isSome_iff_mem_keys]⟩
    · rw [if_neg hk] at hmem
      by_cases hin : a ∈ all_severities m
      · exact hin
      · simp [hin] at hmem
  · intro hin
    rw [mem_all_severities_iff_exists] at hin
    obtain ⟨p, hp, hmem⟩ := hin
    refine ⟨(p.1, normalize_row (all_severities m) p.2), ?_, ?_⟩
    · simp only [normalize_with, List.mem_map]
      exact ⟨p, hp, rfl⟩
    · rw [← dlookup_isSome_iff_mem_keys, dlookup_normalize_row]
      rw [← dlookup_isSome_iff_mem_keys] at hmem
      simp [hmem]

/-! ## Characterization of `organize_by_month` -/

theorem isSome_map {α β : Type} (f : α → β) (o : Option α) :
    (o.map f).isSome = o.isSome := by
  cases o <;> rfl

theorem sev_occurs_of_cnt_rec_pos (l : List IncidentRecord) (mk sev : String)
    (h : 0 < cnt_rec l mk sev) : sev_occurs l sev = true := by
  rw [cnt_rec, List.countP_pos_iff] at h
  obtain ⟨r, hr, hp⟩ := h
  rw [sev_occurs, List.any_eq_true]
  refine ⟨r, hr, ?_⟩
  simp only [hits, Bool.and_eq_true, decide_eq_true_eq] at hp
  simp [has_sev, hp.1.1, hp.2]

theorem dlookup_organize_by_month_isSome (l : List IncidentRecord)
    (mk : String) :
    (dlookup (organize_by_month l) mk).isSome ↔ 0 < cnt_month l mk := by
  unfold organize_by_month normalize_severity_categories
  rw [dlookup_normalize_with, isSome_map, dlookup_isSome_foldl]
  simp [dlookup]

theorem mem_all_severities_organize_by_month (l : List IncidentRecord)
    (a : String) :
    a ∈ all_severities (organize_by_month l) ↔ sev_occurs l a = true := by
  unfold organize_by_month normalize_severity_categories
  rw [mem_all_severities_normalize_with]
  have h := mem_all_severities_foldl l [] a
  simpa [all_severities] using h

theorem get2_organize_by_month (l : List IncidentRecord) (mk sev : String) :
    get2 (organize_by_month l) mk sev =
      if 0 < cnt_month l mk ∧ sev_occurs l sev then some (cnt_rec l mk sev)
      else none := by
  unfold organize_by_month normalize_severity_categories
  rw [get2, dlookup_normalize_with]
  cases hrow : dlookup (l.foldl organize_step []) mk with
  | none =>
      have hiff := dlookup_isSome_foldl l [] mk
      rw [hrow] at hiff
      simp only [dlookup, Option.isSome_none, Bool.false_eq_true, false_iff,
        not_or] at hiff
      simp [hiff.2]
  | some row =>
      have hcm : 0 < cnt_month l mk := by
        have hiff := dlookup_isSome_foldl l [] mk
        rw [hrow] at hiff
        simpa [dlookup] using hiff
      have hval : dlookup row sev =
          get2 (l.foldl organize_step []) mk sev := by
        simp [get2, hrow]
      have hisS := get2_isSome_foldl l [] mk sev
      have hgetD := get2_getD_foldl l [] mk sev
      have hbase : get2 ([] : MonthMatrix) mk sev = none := rfl
      rw [hbase] at hisS hgetD
      simp only [Option.isSome_none, Bool.false_eq_true, false_or,
        Option.getD_none, Nat.zero_add] at hisS hgetD
      simp only [Option.map_some', Option.some_bind]
      rw [dlookup_normalize_row]
      by_cases hs : (dlookup row sev).isSome
      · rw [if_pos hs]
        have hpos : 0 < cnt_rec l mk sev := hisS.1 (hval ▸ hs)
        have hocc := sev_occurs_of_cnt_rec_pos l mk sev hpos
        rw [if_pos ⟨hcm, hocc⟩, hval]
        cases hg : get2 (l.foldl organize_step []) mk sev with
        | none => rw [hval, hg] at hs; simp at hs
        | some c =>
            rw [hg] at hgetD
            simp only [Option.getD_some] at hgetD
            rw [hgetD]

      · rw [if_neg hs]
        have hzero : cnt_rec l mk sev = 0 := by
          by_contra hne
          exact hs (hval ▸ (hisS.2 (Nat.pos_of_ne_zero hne)))
        have hmem : sev ∈ all_severities (l.foldl organize_step []) ↔
            sev_occurs l sev = true := by
          have h := mem_all_severities_foldl l [] sev
          simpa [all_severities] using h
        by_cases ho : sev_occurs l sev = true
        · rw [if_pos (hmem.2 ho), if_pos ⟨hcm, ho⟩, hzero]
        · rw [if_neg (fun hmem2 => ho (hmem.1 hmem2)),
            if_neg (fun hand => ho hand.2)]

theorem matrix_total_organize_by_month (l : List IncidentRecord) :
    matrix_total (organize_by_month l) = l.countP record_ok := by
  unfold organize_by_month normalize_severity_categories
  rw [matrix_total_normalize_with, matrix_total_foldl]
  simp [matrix_total]

theorem organize_step_of_not_ok (m : MonthMatrix) (r : IncidentRecord)
    (h : record_ok r = false) : organize_step m r = m := by
  cases hc : r.created_at with
  | none => simp [organize_step, hc]
  | some s =>
      cases hp : parse_iso s with
      | none => simp [organize_step, hc, hp]
      | some ym =>
          obtain ⟨y, mo⟩ := ym
          cases hi : r.impact with
          | none => simp [organize_step, hc, hp, hi, categorize_by_severity]
          | some v =>
              simp [record_ok, record_month, hc, hp, hi] at h

theorem foldl_organize_step_nil (l : List IncidentRecord)
    (h : ∀ r ∈ l, record_ok r = false) :
    l.foldl organize_step [] = [] := by
  induction l with
  | nil => rfl
  | cons r rest ih =>
      rw [List.foldl_cons, organize_step_of_not_ok _ _ (h r (by simp))]
      exact ih (fun x hx => h x (by simp [hx]))

theorem organize_by_month_eq_nil_iff (l : List IncidentRecord) :
    organize_by_month l = [] ↔ l.countP record_ok = 0 := by
  unfold organize_by_month normalize_severity_categories
  simp only [normalize_with, List.map_eq_nil_iff]
  constructor
  · intro hnil
    by_contra hne
    have hpos : 0 < l.countP record_ok := Nat.pos_of_ne_zero hne
    rw [List.countP_pos_iff] at hpos
    obtain ⟨r, hr, hok⟩ := hpos
    have hok2 := hok
    simp only [record_ok, Bool.and_eq_true] at hok2
    obtain ⟨mk, hmk⟩ := Option.isSome_iff_exists.1 hok2.1
    have hcm : 0 < cnt_month l mk := by
      rw [cnt_month, List.countP_pos_iff]
      exact ⟨r, hr, by simp [hits_month, hok, hmk]⟩
    have hsome := (dlookup_isSome_foldl l [] mk).2 (Or.inr hcm)
    rw [hnil] at hsome
    simp [dlookup] at hsome
  · intro hz
    apply foldl_organize_step_nil
    intro r hr
    have hnot := List.countP_eq_zero.1 hz r hr
    simpa using hnot

/-! ## Permutation invariance helpers -/

theorem sev_occurs_perm {l l' : List IncidentRecord} (h : l.Perm l')
    (a : String) : sev_occurs l a = sev_occurs l' a := by
  have hiff : sev_occurs l a = true ↔ sev_occurs l' a = true := by
    rw [sev_occurs, sev_occurs, List.any_eq_true, List.any_eq_true]
    constructor
    · rintro ⟨r, hr, hp⟩
      exact ⟨r, h.mem_iff.1 hr, hp⟩
    · rintro ⟨r, hr, hp⟩
      exact ⟨r, h.mem_iff.2 hr, hp⟩
  cases hb : sev_occurs l a <;> cases hb2 : sev_occurs l' a <;> simp_all

/-- A general description of what normalization does to one cell. -/
theorem get2_normalize_severity_categories (m : MonthMatrix)
    (mk sev : String) :
    get2 (normalize_severity_categories m) mk sev =
      if (get2 m mk sev).isSome then get2 m mk sev
      else if (dlookup m mk).isSome ∧ sev ∈ all_severities m then some 0
      else none := by
  unfold normalize_severity_categories
  rw [get2, dlookup_normalize_with]
  cases h : dlookup m mk with
  | none => simp [get2, h]
  | some row =>
      simp only [Option.map_some', Option.some_bind]
      rw [dlookup_normalize_row]
      have hg : get2 m mk sev = dlookup row sev := by simp [get2, h]
      rw [hg]
      cases hrs : dlookup row sev with
      | none => simp [h]
      | some c => simp [h]

/-! ## The claims -/

/-- C1: for every list of incident records, the matrix returned by
`organize_by_month` is normalized: the set of severity keys is identical
across every month entry, and equals the union of severity labels observed
across all month entries, with each absent (month, severity) pair carrying
an explicit count of 0. -/
theorem C1_normalization_invariant (l : List IncidentRecord)
    (mk1 mk2 sev : String)
    (h1 : (dlookup (organize_by_month l) mk1).isSome)
    (h2 : (dlookup (organize_by_month l) mk2).isSome) :
    ((get2 (organize_by_month l) mk1 sev).isSome ↔
      (get2 (organize_by_month l) mk2 sev).isSome)
  ∧ ((get2 (organize_by_month l) mk1 sev).isSome ↔
      sev ∈ all_severities (organize_by_month l))
  ∧ (cnt_rec l mk1 sev = 0 → sev ∈ all_severities (organize_by_month l) →
      get2 (organize_by_month l) mk1 sev = some 0) := by
  rw [dlookup_organize_by_month_isSome] at h1 h2
  refine ⟨?_, ?_, ?_⟩
  · rw [get2_organize_by_month, get2_organize_by_month]
    by_cases ho : sev_occurs l sev = true
    · simp [h1, h2, ho]
    · simp [ho]
  · rw [get2_organize_by_month, mem_all_severities_organize_by_month]
    by_cases ho : sev_occurs l sev = true
    · simp [h1, ho]
    · simp [ho]
  · intro hz hmem
    rw [mem_all_severities_organize_by_month] at hmem
    rw [get2_organize_by_month, hz]
    simp [h1, hmem]

/-- Witness for C1 on the two-month batch. -/
theorem C1_normalization_invariant_witness :
    ((get2 (organize_by_month [ex_jan_major, ex_feb_minor]) "2025-01"
        "minor").isSome ↔
      (get2 (organize_by_month [ex_jan_major, ex_feb_minor]) "2025-02"
        "minor").isSome)
  ∧ ((get2 (organize_by_month [ex_jan_major, ex_feb_minor]) "2025-01"
        "minor").isSome ↔
      "minor" ∈ all_severities (organize_by_month [ex_jan_major, ex_feb_minor]))
  ∧ (cnt_rec [ex_jan_major, ex_feb_minor] "2025-01" "minor" = 0 →
      "minor" ∈ all_severities (organize_by_month [ex_jan_major, ex_feb_minor]) →
      get2 (organize_by_month [ex_jan_major, ex_feb_minor]) "2025-01" "minor" =
        some 0) :=
  C1_normalization_invariant [ex_jan_major, ex_feb_minor] "2025-01" "2025-02"
    "minor" (by decide) (by decide)

/-- C2: `organize_by_month` never raises on a malformed record (it is a
total function of the batch); the total count summed over the returned
matrix equals the number of valid records (parsable `created_at` and
present `impact`); the 2-valid + 3-malformed batch totals 2; and the matrix
is empty iff zero records validly parsed. -/
theorem C2_skip_on_malformed (l : List IncidentRecord) :
    matrix_total (organize_by_month l) = l.countP record_ok
  ∧ (organize_by_month l = [] ↔ l.countP record_ok = 0)
  ∧ matrix_total (organize_by_month ex_batch_c2) = 2
  ∧ ex_batch_c2.countP record_ok = 2 := by
  refine ⟨matrix_total_organize_by_month l, organize_by_month_eq_nil_iff l,
    ?_, ?_⟩ <;> decide

/-- C3: `process_incidents` fails exactly when the payload lacks the
`incidents` key, and otherwise returns exactly `organize_by_month` of the
`incidents` collection; on the §8.7 payload it returns exactly the matrix
`{"2025-01": {"major": 1, "minor": 1, "none": 0},
"2025-02": {"major": 0, "minor": 1, "none": 1}}` (stated as the six cell
values plus exactness of the month-key and severity-key sets). -/
theorem C3_process_incidents (p : Payload) :
    ((∃ e, process_incidents p = .error e) ↔ p.incidents = none)
  ∧ (∀ li, p.incidents = some li →
      process_incidents p = .ok (organize_by_month li))
  ∧ process_incidents ex_payload_c3 = .ok (organize_by_month ex_batch_c3)
  ∧ get2 (organize_by_month ex_batch_c3) "2025-01" "major" = some 1
  ∧ get2 (organize_by_month ex_batch_c3) "2025-01" "minor" = some 1
  ∧ get2 (organize_by_month ex_batch_c3) "2025-01" "none" = some 0
  ∧ get2 (organize_by_month ex_batch_c3) "2025-02" "major" = some 0
  ∧ get2 (organize_by_month ex_batch_c3) "2025-02" "minor" = some 1
  ∧ get2 (organize_by_month ex_batch_c3) "2025-02" "none" = some 1
  ∧ (∀ mk, (dlookup (organize_by_month ex_batch_c3) mk).isSome ↔
      mk = "2025-01" ∨ mk = "2025-02")
  ∧ (∀ mk sev, (get2 (organize_by_month ex_batch_c3) mk sev).isSome ↔
      (mk = "2025-01" ∨ mk = "2025-02") ∧
        (sev = "major" ∨ sev = "minor" ∨ sev = "none")) := by
  have hE : organize_by_month ex_batch_c3 =
      [("2025-01", [("major", 1), ("minor", 1), ("none", 0)]),
       ("2025-02", [("minor", 1), ("none", 1), ("major", 0)])] := by decide
  refine ⟨?_, ?_, rfl, by decide, by decide, by decide, by decide, by decide,
    by decide, ?_, ?_⟩
  · cases h : p.incidents <;> simp [process_incidents, h]
  · intro li h
    simp [process_incidents, h]
  · intro mk
    by_cases h1 : mk = "2025-01"
    · subst h1; decide
    · by_cases h2 : mk = "2025-02"
      · subst h2; decide
      · rw [hE]
        have n1 : ("2025-01" : String) ≠ mk := fun h => h1 h.symm
        have n2 : ("2025-02" : String) ≠ mk := fun h => h2 h.symm
        simp [dlookup, n1, n2, h1, h2]
  · intro mk sev
    by_cases hs1 : sev = "major"
    · subst hs1
      by_cases h1 : mk = "2025-01"
      · subst h1; decide
      · by_cases h2 : mk = "2025-02"
        · subst h2; decide
        · rw [hE]
          have n1 : ("2025-01" : String) ≠ mk := fun h => h1 h.symm
          have n2 : ("2025-02" : String) ≠ mk := fun h => h2 h.symm
          simp [get2, dlookup, n1, n2, h1, h2]
    · by_cases hs2 : sev = "minor"
      · subst hs2
        by_cases h1 : mk = "2025-01"
        · subst h1; decide
        · by_cases h2 : mk = "2025-02"
          · subst h2; decide
          · rw [hE]
            have n1 : ("2025-01" : String) ≠ mk := fun h => h1 h.symm
            have n2 : ("2025-02" : String) ≠ mk := fun h => h2 h.symm
            simp [get2, dlookup, n1, n2, h1, h2]
      · by_cases hs3 : sev = "none"
        · subst hs3
          by_cases h1 : mk = "2025-01"
          · subst h1; decide
          · by_cases h2 : mk = "2025-02"
            · subst h2; decide
            · rw [hE]
              have n1 : ("2025-01" : String) ≠ mk := fun h => h1 h.symm
              have n2 : ("2025-02" : String) ≠ mk := fun h => h2 h.symm
              simp [get2, dlookup, n1, n2, h1, h2]
        · have m1 : ("major" : String) ≠ sev := fun h => hs1 h.symm
          have m2 : ("minor" : String) ≠ sev := fun h => hs2 h.symm
          have m3 : ("none" : String) ≠ sev := fun h => hs3 h.symm
          by_cases h1 : mk = "2025-01"
          · subst h1
            rw [hE]
            simp [get2, dlookup, m1, m2, m3, hs1, hs2, hs3]
          · by_cases h2 : mk = "2025-02"
            · subst h2
              rw [hE]
              simp [get2, dlookup, m1, m2, m3, hs1, hs2, hs3]
            · rw [hE]
              have n1 : ("2025-01" : String) ≠ mk := fun h => h1 h.symm
              have n2 : ("2025-02" : String) ≠ mk := fun h => h2 h.symm
              simp [get2, dlookup, n1, n2, h1, h2]

/-- Witness for C3 on the §8.7 payload. -/
theorem C3_process_incidents_witness :
    process_incidents ex_payload_c3 = .ok (organize_by_month ex_batch_c3) :=
  (C3_process_incidents ex_payload_c3).2.1 ex_batch_c3 rfl

/-- C6: `categorize_by_severity` fails exactly when the record's `impact`
field is absent, and otherwise returns the impact value verbatim; it fails
on the record `{"id": "x"}` and returns `"major"` on `{"impact": "major"}`. -/
theorem C6_categorize_by_severity (r : IncidentRecord) :
    ((∃ e, categorize_by_severity r = .error e) ↔ r.impact = none)
  ∧ (∀ v, r.impact = some v → categorize_by_severity r = .ok v)
  ∧ (∃ e, categorize_by_severity ex_only_id = .error e)
  ∧ categorize_by_severity ex_only_impact = .ok "major" := by
  refine ⟨?_, ?_, ⟨_, rfl⟩, rfl⟩
  · cases h : r.impact <;> simp [categorize_by_severity, h]
  · intro v h
    simp [categorize_by_severity, h]

/-- Witness for C6 at the record `{"impact": "major"}`. -/
theorem C6_categorize_by_severity_witness :
    categorize_by_severity ex_only_impact = .ok "major" :=
  (C6_categorize_by_severity ex_only_impact).2.1 "major" rfl

/-- C9: `organize_by_month` is order-independent: a permutation of the
input list yields the same matrix — same month keys, same severity labels,
same counts. -/
theorem C9_order_independence (l l' : List IncidentRecord) (h : l.Perm l')
    (mk sev : String) :
    get2 (organize_by_month l) mk sev = get2 (organize_by_month l') mk sev
  ∧ ((dlookup (organize_by_month l) mk).isSome ↔
      (dlookup (organize_by_month l') mk).isSome)
  ∧ (sev ∈ all_severities (organize_by_month l) ↔
      sev ∈ all_severities (organize_by_month l')) := by
  have hcr : cnt_rec l mk sev = cnt_rec l' mk sev := h.countP_eq _
  have hcm : cnt_month l mk = cnt_month l' mk := h.countP_eq _
  have hso : sev_occurs l sev = sev_occurs l' sev := sev_occurs_perm h sev
  refine ⟨?_, ?_, ?_⟩
  · rw [get2_organize_by_month, get2_organize_by_month, hcr, hcm, hso]
  · rw [dlookup_organize_by_month_isSome, dlookup_organize_by_month_isSome,
      hcm]
  · rw [mem_all_severities_organize_by_month,
      mem_all_severities_organize_by_month, hso]

/-- Witness for C9 on a two-element batch and its transposition. -/
theorem C9_order_independence_witness :
    get2 (organize_by_month [ex_jan_major, ex_feb_minor]) "2025-01" "major" =
      get2 (organize_by_month [ex_feb_minor, ex_jan_major]) "2025-01" "major"
  ∧ ((dlookup (organize_by_month [ex_jan_major, ex_feb_minor])
        "2025-01").isSome ↔
      (dlookup (organize_by_month [ex_feb_minor, ex_jan_major])
        "2025-01").isSome)
  ∧ ("major" ∈ all_severities (organize_by_month [ex_jan_major, ex_feb_minor]) ↔
      "major" ∈ all_severities (organize_by_month [ex_feb_minor, ex_jan_major])) :=
  C9_order_independence [ex_jan_major, ex_feb_minor]
    [ex_feb_minor, ex_jan_major] (by decide) "2025-01" "major"

/-- C10 (frame property of normalization): on a matrix built by the
aggregation sweep, `_normalize_severity_categories` only inserts
zero-valued severity entries — it keeps the month-key list exactly
unchanged, never modifies an existing count, and never removes an entry
(an entry of the output that was absent from the input carries 0). -/
theorem C10_normalize_frame (l : List IncidentRecord) (mk sev : String) :
    ((normalize_severity_categories (l.foldl organize_step [])).map Prod.fst =
      (l.foldl organize_step []).map Prod.fst)
  ∧ (∀ c, get2 (l.foldl organize_step []) mk sev = some c →
      get2 (normalize_severity_categories (l.foldl organize_step [])) mk sev =
        some c)
  ∧ (get2 (l.foldl organize_step []) mk sev = none →
      get2 (normalize_severity_categories (l.foldl organize_step [])) mk sev =
          none ∨
        get2 (normalize_severity_categories (l.foldl organize_step [])) mk sev =
          some 0) := by
  refine ⟨keys_normalize_with _ _, ?_, ?_⟩
  · intro c hc
    rw [get2_normalize_severity_categories, hc]
    simp
  · intro hn
    rw [get2_normalize_severity_categories, hn]
    by_cases hcond : (dlookup (l.foldl organize_step []) mk).isSome ∧
        sev ∈ all_severities (l.foldl organize_step [])
    · right; simp [hcond]
    · left; simp [hcond]

/-- Witness for C10 on the §8.2 batch. -/
theorem C10_normalize_frame_witness :
    get2 (normalize_severity_categories (ex_batch_c2.foldl organize_step []))
      "2025-01" "major" = some 1 :=
  (C10_normalize_frame ex_batch_c2 "2025-01" "major").2.1 1 (by decide)

/-! ## Fetcher lemmas and claims -/

theorem fetch_incidents_on_miss (now ttl : Int) (w : Bool) (file : CacheFile)
    (d : Payload) (li : List IncidentRecord)
    (hmiss : load_from_cache now ttl file = (none, false))
    (hinc : d.incidents = some li) :
    fetch_incidents true now ttl w file (.parsed d) =
      .ok ⟨d, (save_to_cache now w file d).1, true⟩ := by
  unfold fetch_incidents
  rw [hmiss]
  simp [fetch_network_phase, hinc]

theorem fetch_network_phase_ne_cache_error (uc : Bool) (now : Int) (w : Bool)
    (file : CacheFile) (net : NetResponse) :
    fetch_network_phase uc now w file net ≠ .error .cache_error := by
  cases net with
  | request_failure => simp [fetch_network_phase]
  | unparsable => simp [fetch_network_phase]
  | parsed data =>
      cases hd : data.incidents with
      | none => simp [fetch_network_phase, hd]
      | some li =>
          cases uc <;> simp [fetch_network_phase, hd]

theorem fetch_incidents_ne_cache_error (uc : Bool) (now ttl : Int) (w : Bool)
    (file : CacheFile) (net : NetResponse) :
    fetch_incidents uc now ttl w file net ≠ .error .cache_error := by
  unfold fetch_incidents
  rcases hload : load_from_cache now ttl file with ⟨cd, cu⟩
  cases uc with
  | false =>
      simpa using fetch_network_phase_ne_cache_error false now w file net
  | true =>
      cases cu with
      | false =>
          simpa using fetch_network_phase_ne_cache_error true now w file net
      | true =>
          cases cd with
          | none =>
              simpa using fetch_network_phase_ne_cache_error true now w file net
          | some d2 => simp

/-- C4: cache round-trip — a payload written at time `t` and read at time
`now` with `now - t ≤ ttl` comes back deep-equal with the cache marked
used; a read past the TTL is a miss; and an expired or structurally
invalid entry behaves exactly like an absent one. -/
theorem C4_cache_round_trip (P : Payload) (t t2 now ttl : Int)
    (file0 : CacheFile) (hfresh : now - t ≤ ttl) (hexp : ttl < now - t2) :
    load_from_cache now ttl (save_to_cache t true file0 P).1 = (some P, true)
  ∧ load_from_cache now ttl (save_to_cache t2 true file0 P).1 = (none, false)
  ∧ load_from_cache now ttl (save_to_cache t2 true file0 P).1 =
      load_from_cache now ttl .absent
  ∧ load_from_cache now ttl .malformed = load_from_cache now ttl .absent
  ∧ load_from_cache now ttl .corrupt = load_from_cache now ttl .absent
  ∧ load_from_cache now ttl .unreadable = load_from_cache now ttl .absent := by
  have h1 : (save_to_cache t true file0 P).1 = .entry t P := rfl
  have h2 : (save_to_cache t2 true file0 P).1 = .entry t2 P := rfl
  have hmiss : load_from_cache now ttl (.entry t2 P) = (none, false) := by
    simp only [load_from_cache]
    rw [if_pos hexp]
  refine ⟨?_, ?_, ?_, rfl, rfl, rfl⟩
  · rw [h1]
    simp only [load_from_cache]
    rw [if_neg (by omega)]
  · rw [h2, hmiss]
  · rw [h2, hmiss]
    rfl

/-- Witness for C4 at `t = now = 100`, `t2 = 0`, `ttl = 50`. -/
theorem C4_cache_round_trip_witness :
    load_from_cache 100 50 (save_to_cache 100 true .absent ⟨none⟩).1 =
      (some ⟨none⟩, true)
  ∧ load_from_cache 100 50 (save_to_cache 0 true .absent ⟨none⟩).1 =
      (none, false)
  ∧ load_from_cache 100 50 (save_to_cache 0 true .absent ⟨none⟩).1 =
      load_from_cache 100 50 .absent
  ∧ load_from_cache 100 50 .malformed = load_from_cache 100 50 .absent
  ∧ load_from_cache 100 50 .corrupt = load_from_cache 100 50 .absent
  ∧ load_from_cache 100 50 .unreadable = load_from_cache 100 50 .absent :=
  C4_cache_round_trip ⟨none⟩ 100 0 100 50 .absent (by omega) (by omega)

/-- C5: cache failures are never fatal to `fetch_incidents` — any kind of
cache miss falls through to the network fetch and no cache-related error
ever reaches the caller; a cache-write failure after a successful fetch
still returns the freshly fetched payload. -/
theorem C5_cache_failures_never_fatal (now ttl : Int) (file : CacheFile)
    (w : Bool) (d : Payload) (li : List IncidentRecord)
    (hmiss : load_from_cache now ttl file = (none, false))
    (hinc : d.incidents = some li) :
    (∃ out, fetch_incidents true now ttl w file (.parsed d) = .ok out ∧
      out.data = d ∧ out.network_used = true)
  ∧ fetch_incidents true now ttl false file (.parsed d) = .ok ⟨d, file, true⟩
  ∧ (∀ (uc w2 : Bool) (f2 : CacheFile) (net : NetResponse),
      fetch_incidents uc now ttl w2 f2 net ≠ .error .cache_error) := by
  refine ⟨⟨_, fetch_incidents_on_miss now ttl w file d li hmiss hinc,
    rfl, rfl⟩, ?_, ?_⟩
  · rw [fetch_incidents_on_miss now ttl false file d li hmiss hinc]
    rfl
  · intro uc w2 f2 net
    exact fetch_incidents_ne_cache_error uc now ttl w2 f2 net

/-- Witness for C5 with a corrupt cache file. -/
theorem C5_cache_failures_never_fatal_witness :
    (∃ out, fetch_incidents true 0 3600 true .corrupt (.parsed ⟨some []⟩) =
      .ok out ∧ out.data = ⟨some []⟩ ∧ out.network_used = true)
  ∧ fetch_incidents true 0 3600 false .corrupt (.parsed ⟨some []⟩) =
      .ok ⟨⟨some []⟩, .corrupt, true⟩
  ∧ (∀ (uc w2 : Bool) (f2 : CacheFile) (net : NetResponse),
      fetch_incidents uc 0 3600 w2 f2 net ≠ .error .cache_error) :=
  C5_cache_failures_never_fatal 0 3600 .corrupt true ⟨some []⟩ [] rfl rfl

/-- C7: fetch idempotence — after a first `use_cache` call that missed the
cache, fetched from the network and wrote the cache, a second call within
the TTL window is served from the cache with no network I/O, whatever the
network would have answered. -/
theorem C7_fetch_idempotent (now now2 ttl : Int) (file : CacheFile)
    (d : Payload) (li : List IncidentRecord)
    (hmiss : load_from_cache now ttl file = (none, false))
    (hinc : d.incidents = some li)
    (hfresh : now2 - now ≤ ttl) :
    fetch_incidents true now ttl true file (.parsed d) =
      .ok ⟨d, .entry now d, true⟩
  ∧ (∀ (net2 : NetResponse) (w2 : Bool),
      fetch_incidents true now2 ttl w2 (.entry now d) net2 =
        .ok ⟨d, .entry now d, false⟩) := by
  constructor
  · rw [fetch_incidents_on_miss now ttl true file d li hmiss hinc]
    rfl
  · intro net2 w2
    unfold fetch_incidents
    have hhit : load_from_cache now2 ttl (.entry now d) = (some d, true) := by
      simp only [load_from_cache]
      rw [if_neg (by omega)]
    rw [hhit]
    rfl

/-- Witness for C7: first call at time 0, second at time 10, TTL 3600. -/
theorem C7_fetch_idempotent_witness :
    fetch_incidents true 0 3600 true .absent (.parsed ⟨some []⟩) =
      .ok ⟨⟨some []⟩, .entry 0 ⟨some []⟩, true⟩
  ∧ (∀ (net2 : NetResponse) (w2 : Bool),
      fetch_incidents true 10 3600 w2 (.entry 0 ⟨some []⟩) net2 =
        .ok ⟨⟨some []⟩, .entry 0 ⟨some []⟩, false⟩) :=
  C7_fetch_idempotent 0 10 3600 .absent ⟨some []⟩ [] rfl rfl (by omega)


theorem parse_date_bounds (cs : List Char) (y m d : Nat) (rest : List Char)
    (h : parse_date cs = some (y, m, d, rest)) :
    1 ≤ y ∧ y ≤ 9999 ∧ 1 ≤ m ∧ m ≤ 12 := by
  unfold parse_date at h
  repeat' split at h
  all_goals simp_all

theorem parse_iso_bounds (s : String) (y m : Nat)
    (h : parse_iso s = some (y, m)) :
    1 ≤ y ∧ y ≤ 9999 ∧ 1 ≤ m ∧ m ≤ 12 := by
  unfold parse_iso parse_iso_chars at h
  cases hd : parse_date (replaceZ s.toList) with
  | none => rw [hd] at h; simp at h
  | some t =>
      obtain ⟨y0, m0, d0, rest⟩ := t
      rw [hd] at h
      have hb := parse_date_bounds _ _ _ _ _ hd
      dsimp only at h
      cases rest with
      | nil =>
          simp only [Option.some.injEq, Prod.mk.injEq] at h
          obtain ⟨h1, h2⟩ := h
          subst h1; subst h2
          exact hb
      | cons sep r6 =>
          dsimp only at h
          cases ht : parse_time r6 with
          | none => rw [ht] at h; simp at h
          | some r7 =>
              rw [ht] at h
              dsimp only at h
              cases ho : parse_offset r7 with
              | none => rw [ho] at h; simp at h
              | some u =>
                  rw [ho] at h
                  simp only [Option.map_some', Option.some.injEq,
                    Prod.mk.injEq] at h
                  obtain ⟨h1, h2⟩ := h
                  subst h1; subst h2
                  exact hb

theorem month_key_form (l : List IncidentRecord) (mk : String)
    (h : (dlookup (organize_by_month l) mk).isSome) :
    ∃ y m, 1 ≤ y ∧ y ≤ 9999 ∧ 1 ≤ m ∧ m ≤ 12 ∧ mk = month_key y m := by
  rw [dlookup_organize_by_month_isSome, cnt_month, List.countP_pos_iff] at h
  obtain ⟨r, hr, hp⟩ := h
  simp only [hits_month, Bool.and_eq_true, decide_eq_true_eq] at hp
  obtain ⟨hok, hmk⟩ := hp
  rw [record_month] at hmk
  cases hc : r.created_at with
  | none => rw [hc] at hmk; simp at hmk
  | some s =>
      rw [hc] at hmk
      simp only [Option.some_bind] at hmk
      cases hpi : parse_iso s with
      | none => rw [hpi] at hmk; simp at hmk
      | some ym =>
          obtain ⟨y, m⟩ := ym
          rw [hpi] at hmk
          simp only [Option.map_some', Option.some.injEq] at hmk
          have hb := parse_iso_bounds s y m hpi
          exact ⟨y, m, hb.1, hb.2.1, hb.2.2.1, hb.2.2.2, hmk.symm⟩

theorem digitChar_lt_digitChar : ∀ a : Nat, a < 10 → ∀ b : Nat, b < 10 →
    ((Nat.digitChar a < Nat.digitChar b) ↔ a < b) := by decide

theorem digitChar_eq_digitChar : ∀ a : Nat, a < 10 → ∀ b : Nat, b < 10 →
    ((Nat.digitChar a = Nat.digitChar b) ↔ a = b) := by decide

theorem toDigitsCore_base (f n : Nat) (ds : List Char) (hn : n < 10) :
    Nat.toDigitsCore 10 (f + 1) n ds = n.digitChar :: ds := by
  simp only [Nat.toDigitsCore]
  rw [Nat.mod_eq_of_lt hn, if_pos (Nat.div_eq_of_lt hn)]

theorem toDigitsCore_step (f n : Nat) (ds : List Char) (h10 : 10 ≤ n) :
    Nat.toDigitsCore 10 (f + 1) n ds =
      Nat.toDigitsCore 10 f (n / 10) ((n % 10).digitChar :: ds) := by
  simp only [Nat.toDigitsCore]
  rw [if_neg (by omega : ¬ n / 10 = 0)]

theorem toDigitsCore_two (f m : Nat) (ds : List Char) (hf : 2 ≤ f)
    (h1 : 10 ≤ m) (h2 : m ≤ 99) :
    Nat.toDigitsCore 10 f m ds =
      (m / 10).digitChar :: (m % 10).digitChar :: ds := by
  obtain ⟨g, rfl⟩ : ∃ g, f = g + 2 := ⟨f - 2, by omega⟩
  show Nat.toDigitsCore 10 ((g + 1) + 1) m ds = _
  rw [toDigitsCore_step (g + 1) m ds h1]
  rw [toDigitsCore_base g (m / 10) _ (by omega)]

theorem toDigitsCore_four (f y : Nat) (ds : List Char) (hf : 4 ≤ f)
    (h1 : 1000 ≤ y) (h2 : y ≤ 9999) :
    Nat.toDigitsCore 10 f y ds =
      (y / 1000).digitChar :: (y / 100 % 10).digitChar ::
        (y / 10 % 10).digitChar :: (y % 10).digitChar :: ds := by
  obtain ⟨g, rfl⟩ : ∃ g, f = g + 4 := ⟨f - 4, by omega⟩
  show Nat.toDigitsCore 10 ((g + 3) + 1) y ds = _
  rw [toDigitsCore_step (g + 3) y ds (by omega)]
  show Nat.toDigitsCore 10 ((g + 2) + 1) (y / 10)
      ((y % 10).digitChar :: ds) = _
  rw [toDigitsCore_step (g + 2) (y / 10) _ (by omega)]
  rw [Nat.div_div_eq_div_mul, show (10 * 10 : Nat) = 100 from rfl]
  show Nat.toDigitsCore 10 ((g + 1) + 1) (y / 100)
      ((y / 10 % 10).digitChar :: (y % 10).digitChar :: ds) = _
  rw [toDigitsCore_step (g + 1) (y / 100) _ (by omega)]
  rw [Nat.div_div_eq_div_mul, show (100 * 10 : Nat) = 1000 from rfl]
  rw [toDigitsCore_base g (y / 1000) _ (by omega)]

theorem toList_repr_one (m : Nat) (h : m < 10) :
    (toString m).toList = [m.digitChar] :=
  toDigitsCore_base m m [] h

theorem toList_repr_two (m : Nat) (h1 : 10 ≤ m) (h2 : m ≤ 99) :
    (toString m).toList = [(m / 10).digitChar, (m % 10).digitChar] :=
  toDigitsCore_two (m + 1) m [] (by omega) h1 h2

theorem toList_repr_four (y : Nat) (h1 : 1000 ≤ y) (h2 : y ≤ 9999) :
    (toString y).toList =
      [(y / 1000).digitChar, (y / 100 % 10).digitChar,
       (y / 10 % 10).digitChar, (y % 10).digitChar] :=
  toDigitsCore_four (y + 1) y [] (by omega) h1 h2

theorem toList_append (s t : String) :
    (s ++ t).toList = s.toList ++ t.toList := by
  simp [String.toList, String.data_append]

theorem month_key_toList (y m : Nat) (hy1 : 1000 ≤ y) (hy2 : y ≤ 9999)
    (hm1 : 1 ≤ m) (hm2 : m ≤ 12) :
    (month_key y m).toList =
      [(y / 1000).digitChar, (y / 100 % 10).digitChar,
       (y / 10 % 10).digitChar, (y % 10).digitChar, '-',
       (m / 10).digitChar, (m % 10).digitChar] := by
  unfold month_key
  by_cases hm : m < 10
  · rw [if_pos hm, toList_append, toList_append, toList_append]
    rw [toList_repr_four y hy1 hy2, toList_repr_one m hm]
    rw [show m / 10 = 0 from by omega, show m % 10 = m from by omega]
    rfl
  · rw [if_neg hm, toList_append, toList_append]
    rw [toList_repr_four y hy1 hy2, toList_repr_two m (by omega) (by omega)]
    rfl

theorem list_lt_eq_lex (l1 l2 : List Char) :
    (l1 < l2) = List.Lex (· < ·) l1 l2 := rfl

theorem lex_cons_iff_char (a b : Char) (l1 l2 : List Char) :
    List.Lex (· < ·) (a :: l1) (b :: l2) ↔
      a < b ∨ (a = b ∧ List.Lex (· < ·) l1 l2) := by
  constructor
  · intro h
    cases h
    · right; exact ⟨rfl, by assumption⟩
    · left; assumption
  · rintro (h | ⟨rfl, h⟩)
    · exact List.Lex.rel h
    · exact List.Lex.cons h

theorem lex_nil_nil_iff :
    List.Lex (· < ·) ([] : List Char) [] ↔ False := by
  constructor
  · intro h
    cases h
  · intro h
    cases h

theorem month_key_lt_iff (y1 m1 y2 m2 : Nat)
    (hy1 : 1000 ≤ y1) (hy2 : y1 ≤ 9999) (hy3 : 1000 ≤ y2) (hy4 : y2 ≤ 9999)
    (hm1 : 1 ≤ m1) (hm2 : m1 ≤ 12) (hm3 : 1 ≤ m2) (hm4 : m2 ≤ 12) :
    (month_key y1 m1 < month_key y2 m2) ↔
      (y1 < y2 ∨ (y1 = y2 ∧ m1 < m2)) := by
  rw [String.lt_iff_toList_lt]
  rw [month_key_toList y1 m1 hy1 hy2 hm1 hm2,
    month_key_toList y2 m2 hy3 hy4 hm3 hm4]
  rw [list_lt_eq_lex]
  simp only [lex_cons_iff_char, lex_nil_nil_iff]
  rw [digitChar_lt_digitChar _ (by omega) _ (by omega : y2 / 1000 < 10),
    digitChar_eq_digitChar _ (by omega) _ (by omega : y2 / 1000 < 10),
    digitChar_lt_digitChar _ (by omega) _ (by omega : y2 / 100 % 10 < 10),
    digitChar_eq_digitChar _ (by omega) _ (by omega : y2 / 100 % 10 < 10),
    digitChar_lt_digitChar _ (by omega) _ (by omega : y2 / 10 % 10 < 10),
    digitChar_eq_digitChar _ (by omega) _ (by omega : y2 / 10 % 10 < 10),
    digitChar_lt_digitChar _ (by omega) _ (by omega : y2 % 10 < 10),
    digitChar_eq_digitChar _ (by omega) _ (by omega : y2 % 10 < 10),
    digitChar_lt_digitChar _ (by omega) _ (by omega : m2 / 10 < 10),
    digitChar_eq_digitChar _ (by omega) _ (by omega : m2 / 10 < 10),
    digitChar_lt_digitChar _ (by omega) _ (by omega : m2 % 10 < 10),
    digitChar_eq_digitChar _ (by omega) _ (by omega : m2 % 10 < 10)]
  have hdash : (('-' : Char) < '-') = False := by
    simp only [eq_iff_iff, iff_false]
    decide
  simp only [hdash, eq_self_iff_true, false_or, true_and, and_false,
    or_false, false_and]
  omega

/-- C8: every month key emitted by `organize_by_month` has the form
(decimal year) ++ "-" ++ (two-digit zero-padded month); and for month keys
in `YYYY-MM` format (four-digit year, month 01-12), lexicographic string
order coincides with chronological order of the (year, month) calendar
dates. -/
theorem C8_lexical_chronological (l : List IncidentRecord) (mk : String)
    (y1 m1 y2 m2 : Nat)
    (hp : (dlookup (organize_by_month l) mk).isSome)
    (hy1 : 1000 ≤ y1) (hy2 : y1 ≤ 9999) (hy3 : 1000 ≤ y2) (hy4 : y2 ≤ 9999)
    (hm1 : 1 ≤ m1) (hm2 : m1 ≤ 12) (hm3 : 1 ≤ m2) (hm4 : m2 ≤ 12) :
    (∃ y m, 1 ≤ y ∧ y ≤ 9999 ∧ 1 ≤ m ∧ m ≤ 12 ∧ mk = month_key y m)
  ∧ ((month_key y1 m1 < month_key y2 m2) ↔
      (y1 < y2 ∨ (y1 = y2 ∧ m1 < m2))) :=
  ⟨month_key_form l mk hp,
   month_key_lt_iff y1 m1 y2 m2 hy1 hy2 hy3 hy4 hm1 hm2 hm3 hm4⟩

/-- Witness for C8: the key "2025-01" from a one-record batch, and the
pair 2024-12 < 2025-01. -/
theorem C8_lexical_chronological_witness :
    (∃ y m, 1 ≤ y ∧ y ≤ 9999 ∧ 1 ≤ m ∧ m ≤ 12 ∧
      "2025-01" = month_key y m)
  ∧ (month_key 2024 12 < month_key 2025 1 ↔
      (2024 < 2025 ∨ (2024 = 2025 ∧ 12 < 1))) :=
  C8_lexical_chronological [ex_jan_major] "2025-01" 2024 12 2025 1
    (by decide) (by decide) (by decide) (by decide) (by decide)
    (by decide) (by decide) (by decide) (by decide)

end GHStatus
